import Mathlib

/-!
Verification of the ring-FIFO implementation in `src/gfifo.h`
(`DECLARE_GFIFO_TYPE`) and `src/inc/sfifo.h` (`DECLARE_SFIFO_TYPE`).

The C code is shallowly embedded: the FIFO struct becomes a Lean structure,
each generated `static inline` function becomes a pure Lean function that
returns its boolean result together with the successor state (and, for
operations with an output parameter, the value of the output slot after the
call).  `uint32_t` values are modelled as `Nat` reduced modulo `2 ^ 32`
wherever the C code can overflow.
-/

namespace GFifoVerify

/-- `2 ^ 32`, the modulus of the `uint32_t` counters. -/
def u32 : Nat := 4294967296

/-- `uint32_t` subtraction `a - b`: both operands reduced to the uint32 range,
result taken modulo `2 ^ 32` (C unsigned wraparound). -/
def sub32 (a b : Nat) : Nat := (a % u32 + (u32 - b % u32)) % u32

/-!
## Data model

`DECLARE_GFIFO_TYPE(name, type)` in `src/gfifo.h` generates

    typedef struct { type *buf; uint32_t cap; uint32_t msk;
                     volatile uint32_t i; volatile uint32_t o; } gfifo_name_t;

The buffer pointer plus the memory it points at is modelled as a `List α`;
the four `uint32_t` fields are `Nat`s kept below `2 ^ 32` by every operation.
-/

structure GFifo (α : Type) where
  buf : List α
  cap : Nat
  msk : Nat
  i : Nat
  o : Nat
deriving DecidableEq, Repr

/-- Element-wise `memcpy` into `dst` starting at index `start` (writes past
the end of `dst` are dropped; the C call sites guarantee they never occur). -/
def copyInto (dst : List α) (start : Nat) (src : List α) : List α :=
  match src with
  | [] => dst
  | x :: xs => copyInto (dst.set start x) (start + 1) xs

/-- Element-wise `memcpy` source: read `len` consecutive elements of `l`
starting at `start` (out-of-range reads yield `default`; the C call sites
guarantee they never occur). -/
def readSlice [Inhabited α] (l : List α) (start len : Nat) : List α :=
  (List.range len).map fun j => l.getD (start + j) default

/-!
## Operations of the external-buffer flavor (`src/gfifo.h`)

Each C function `bool gfifo_name_op(gfifo_name_t *f, ...)` becomes a Lean
function from the pre-state (plus arguments) to the pair of its boolean
result and the post-state.  A `type *e` output parameter becomes an extra
argument holding the output slot's pre-call value and an extra result
component holding its post-call value.  A NULL buffer pointer is modelled
as `Option.none`.
-/

/-- `gfifo_##name##_init` (src/gfifo.h:64-74). -/
def gfifo_init (f : GFifo α) (buf : Option (List α)) (size : Nat) : Bool × GFifo α :=
  if size = 0 ∨ size &&& (size - 1) ≠ 0 ∨ buf.isNone then
    (false, f)
  else
    (true, { buf := buf.getD [], cap := size, msk := size - 1, i := 0, o := 0 })

/-- `gfifo_##name##_reset` (src/gfifo.h:81-83). -/
def gfifo_reset (f : GFifo α) : GFifo α :=
  { f with i := 0, o := 0 }

/-- `gfifo_##name##_is_empty` (src/gfifo.h:92-94): `f->i == f->o`. -/
def gfifo_is_empty (f : GFifo α) : Bool :=
  f.i == f.o

/-- `gfifo_##name##_is_full` (src/gfifo.h:103-105): `(f->i - f->o) == f->cap`. -/
def gfifo_is_full (f : GFifo α) : Bool :=
  sub32 f.i f.o == f.cap

/-- `gfifo_##name##_count` (src/gfifo.h:113-115): `f->i - f->o`. -/
def gfifo_count (f : GFifo α) : Nat :=
  sub32 f.i f.o

/-- `gfifo_##name##_push` (src/gfifo.h:126-135). -/
def gfifo_push (f : GFifo α) (e : α) : Bool × GFifo α :=
  if sub32 f.i f.o < f.cap then
    (true, { f with buf := f.buf.set (f.i &&& f.msk) e, i := (f.i + 1) % u32 })
  else
    (false, f)

/-- `gfifo_##name##_pop` (src/gfifo.h:146-155).  `e` is the pre-call value of
the output slot `*e`; the third component is its post-call value. -/
def gfifo_pop [Inhabited α] (f : GFifo α) (e : α) : Bool × GFifo α × α :=
  if sub32 f.i f.o > 0 then
    (true, { f with o := (f.o + 1) % u32 }, f.buf.getD (f.o &&& f.msk) default)
  else
    (false, f, e)

/-- `gfifo_##name##_drop` (src/gfifo.h:165-172). -/
def gfifo_drop (f : GFifo α) : Bool × GFifo α :=
  if sub32 f.i f.o > 0 then
    (true, { f with o := (f.o + 1) % u32 })
  else
    (false, f)

/-- Modelled from the spec: `gfifo_##name##_drop_multi` (src/gfifo.h:183-198)
does not compile as written (the local `uint32_t cnt = in - out;` redeclares
the parameter `cnt`, and the body tests an undefined identifier `len`).
Following spec §9, its intended contract — the `pop_array` admission logic
with no data movement, the request length being the parameter — is modelled
here: the parameter is named `len` and the local occupancy is `cnt`. -/
def gfifo_drop_multi (f : GFifo α) (len : Nat) : Bool × GFifo α :=
  if len = 0 then
    (true, f)
  else if sub32 f.i f.o < len then
    (false, f)
  else
    (true, { f with o := (f.o + len) % u32 })

/-- `gfifo_##name##_peek` (src/gfifo.h:209-218).  The C parameter `f` is
`const`-qualified, so no post-state is returned; the second component is the
post-call value of the output slot `*e`, whose pre-call value is `e`. -/
def gfifo_peek [Inhabited α] (f : GFifo α) (e : α) : Bool × α :=
  if sub32 f.i f.o > 0 then
    (true, f.buf.getD (f.o &&& f.msk) default)
  else
    (false, e)

/-- `gfifo_##name##_peek_at` (src/gfifo.h:230-240): reads slot
`(idx + ofst) & msk` where the addition is uint32. -/
def gfifo_peek_at [Inhabited α] (f : GFifo α) (e : α) (ofst : Nat) : Bool × α :=
  if ofst < sub32 f.i f.o then
    (true, f.buf.getD (((f.o + ofst) % u32) &&& f.msk) default)
  else
    (false, e)

/-- The two `memcpy` calls of `gfifo_##name##_push_array`
(src/gfifo.h:268-274): first segment of `l1 = min(len, cap - (i & msk))`
elements at physical offset `i & msk`, wrap segment of `len - l1` elements
at physical offset 0. -/
def pushCopy [Inhabited α] (buf : List α) (cap msk i : Nat) (arr : List α)
    (len : Nat) : List α :=
  let ofst := i &&& msk
  let l2e := sub32 cap ofst
  let l1 := if len < l2e then len else l2e
  let buf1 := copyInto buf ofst (readSlice arr 0 l1)
  if len > l1 then copyInto buf1 0 (readSlice arr l1 (len - l1)) else buf1

/-- `gfifo_##name##_push_array` (src/gfifo.h:255-277). -/
def gfifo_push_array [Inhabited α] (f : GFifo α) (arr : List α) (len : Nat) :
    Bool × GFifo α :=
  if len = 0 then
    (true, f)
  else if len > sub32 f.cap (sub32 f.i f.o) then
    (false, f)
  else
    (true, { f with buf := pushCopy f.buf f.cap f.msk f.i arr len,
                    i := (f.i + len) % u32 })

/-- The two `memcpy` calls of `gfifo_##name##_pop_array`
(src/gfifo.h:305-311), writing into the destination array `arr`. -/
def popRead [Inhabited α] (buf : List α) (cap msk o : Nat) (arr : List α)
    (len : Nat) : List α :=
  let ofst := o &&& msk
  let l2e := sub32 cap ofst
  let l1 := if len < l2e then len else l2e
  let arr1 := copyInto arr 0 (readSlice buf ofst l1)
  if len > l1 then copyInto arr1 l1 (readSlice buf 0 (len - l1)) else arr1

/-- `gfifo_##name##_pop_array` (src/gfifo.h:292-314).  `arr` holds the
pre-call contents of the destination buffer; the third component holds its
post-call contents. -/
def gfifo_pop_array [Inhabited α] (f : GFifo α) (arr : List α) (len : Nat) :
    Bool × GFifo α × List α :=
  if len = 0 then
    (true, f, arr)
  else if sub32 f.i f.o < len then
    (false, f, arr)
  else
    (true, { f with o := (f.o + len) % u32 }, popRead f.buf f.cap f.msk f.o arr len)

/-!
## Operations of the embedded-buffer flavor (`src/inc/sfifo.h`)

`DECLARE_SFIFO_TYPE(name, type, size)` embeds `type buf[size]` in the struct
and `_Static_assert`s that `size` is a power of two (src/inc/sfifo.h:54-62).
The macro parameter `size` becomes an ordinary argument of `sfifo_init`; the
static assertion becomes a hypothesis where a theorem needs it.  The NULL
check of `sfifo_init` (`f == NULL`) concerns the queue pointer itself and is
outside the state-based embedding: here `f` always denotes a valid object.
The operation set generated by the macro contains no `drop_multi`.
-/

structure SFifo (α : Type) where
  buf : List α
  cap : Nat
  msk : Nat
  i : Nat
  o : Nat
deriving DecidableEq, Repr

/-- `sfifo_##name##_##size##_init` (src/inc/sfifo.h:73-82), for a non-NULL
`f`: sets `i = o = 0`, `cap = size`, `msk = size - 1` and returns true. -/
def sfifo_init (size : Nat) (f : SFifo α) : Bool × SFifo α :=
  (true, { f with i := 0, o := 0, cap := size, msk := size - 1 })

/-- `sfifo_##name##_##size##_reset` (src/inc/sfifo.h:90-93). -/
def sfifo_reset (f : SFifo α) : SFifo α :=
  { f with i := 0, o := 0 }

/-- `sfifo_##name##_##size##_is_empty` (src/inc/sfifo.h:100-103). -/
def sfifo_is_empty (f : SFifo α) : Bool :=
  f.i == f.o

/-- `sfifo_##name##_##size##_is_full` (src/inc/sfifo.h:112-115). -/
def sfifo_is_full (f : SFifo α) : Bool :=
  sub32 f.i f.o == f.cap

/-- `sfifo_##name##_##size##_count` (src/inc/sfifo.h:122-125). -/
def sfifo_count (f : SFifo α) : Nat :=
  sub32 f.i f.o

/-- `sfifo_##name##_##size##_push` (src/inc/sfifo.h:134-144). -/
def sfifo_push (f : SFifo α) (e : α) : Bool × SFifo α :=
  if sub32 f.i f.o < f.cap then
    (true, { f with buf := f.buf.set (f.i &&& f.msk) e, i := (f.i + 1) % u32 })
  else
    (false, f)

/-- `sfifo_##name##_##size##_pop` (src/inc/sfifo.h:153-163). -/
def sfifo_pop [Inhabited α] (f : SFifo α) (e : α) : Bool × SFifo α × α :=
  if sub32 f.i f.o > 0 then
    (true, { f with o := (f.o + 1) % u32 }, f.buf.getD (f.o &&& f.msk) default)
  else
    (false, f, e)

/-- `sfifo_##name##_##size##_drop` (src/inc/sfifo.h:170-178). -/
def sfifo_drop (f : SFifo α) : Bool × SFifo α :=
  if sub32 f.i f.o > 0 then
    (true, { f with o := (f.o + 1) % u32 })
  else
    (false, f)

/-- `sfifo_##name##_##size##_peek` (src/inc/sfifo.h:187-197). -/
def sfifo_peek [Inhabited α] (f : SFifo α) (e : α) : Bool × α :=
  if sub32 f.i f.o > 0 then
    (true, f.buf.getD (f.o &&& f.msk) default)
  else
    (false, e)

/-- `sfifo_##name##_##size##_peek_at` (src/inc/sfifo.h:207-217). -/
def sfifo_peek_at [Inhabited α] (f : SFifo α) (e : α) (ofst : Nat) : Bool × α :=
  if ofst < sub32 f.i f.o then
    (true, f.buf.getD (((f.o + ofst) % u32) &&& f.msk) default)
  else
    (false, e)

/-- `sfifo_##name##_##size##_push_array` (src/inc/sfifo.h:230-252); its body
is line-for-line that of `gfifo_##name##_push_array`. -/
def sfifo_push_array [Inhabited α] (f : SFifo α) (arr : List α) (len : Nat) :
    Bool × SFifo α :=
  if len = 0 then
    (true, f)
  else if len > sub32 f.cap (sub32 f.i f.o) then
    (false, f)
  else
    (true, { f with buf := pushCopy f.buf f.cap f.msk f.i arr len,
                    i := (f.i + len) % u32 })

/-- `sfifo_##name##_##size##_pop_array` (src/inc/sfifo.h:265-287); its body
is line-for-line that of `gfifo_##name##_pop_array`. -/
def sfifo_pop_array [Inhabited α] (f : SFifo α) (arr : List α) (len : Nat) :
    Bool × SFifo α × List α :=
  if len = 0 then
    (true, f, arr)
  else if sub32 f.i f.o < len then
    (false, f, arr)
  else
    (true, { f with o := (f.o + len) % u32 }, popRead f.buf f.cap f.msk f.o arr len)

/-!
## Sequencing helpers

Small drivers used to express the spec's concrete scenarios and the
reachable-state set.
-/

/-- Push the elements of a list one by one, collecting each call's result. -/
def pushSeq (f : GFifo Nat) : List Nat → GFifo Nat × List Bool
  | [] => (f, [])
  | x :: xs =>
    let r := gfifo_push f x
    let rest := pushSeq r.2 xs
    (rest.1, r.1 :: rest.2)

/-- Pop `n` times (output slot initialized to 0), collecting the popped
values and each call's result. -/
def popSeq (f : GFifo Nat) : Nat → GFifo Nat × List Nat × List Bool
  | 0 => (f, [], [])
  | n + 1 =>
    let r := gfifo_pop f 0
    let rest := popSeq r.2.1 n
    (rest.1, r.2.2 :: rest.2.1, r.1 :: rest.2.2)

/-- One call of the read-only observation API. -/
inductive PeekCall where
  | peek : PeekCall
  | peekAt (ofst : Nat) : PeekCall

/-- Run a sequence of `peek`/`peek_at` calls, threading the queue state and
the output slot.  The queue component never changes because both C functions
take the queue by `const` pointer and their bodies write only `*e`. -/
def runPeeks [Inhabited α] (f : GFifo α) (e : α) : List PeekCall → GFifo α × α
  | [] => (f, e)
  | PeekCall.peek :: rest => runPeeks f (gfifo_peek f e).2 rest
  | PeekCall.peekAt ofst :: rest => runPeeks f (gfifo_peek_at f e ofst).2 rest

/-!
## Reachable states and the occupancy invariant
-/

/-- States reachable from a successful `gfifo_init` by any sequence of API
calls (successful or failed; `peek`/`peek_at` take the queue by `const`
pointer and return no successor state).  `size < u32` records that the C
parameter is a `uint32_t`. -/
inductive Reachable [Inhabited α] : GFifo α → Prop where
  | init (f₀ : GFifo α) (buf : List α) (size : Nat) (hsize : size < u32)
      (hok : (gfifo_init f₀ (some buf) size).1 = true) :
      Reachable (gfifo_init f₀ (some buf) size).2
  | push (f : GFifo α) (e : α) : Reachable f → Reachable (gfifo_push f e).2
  | pop (f : GFifo α) (e : α) : Reachable f → Reachable (gfifo_pop f e).2.1
  | drop (f : GFifo α) : Reachable f → Reachable (gfifo_drop f).2
  | dropMulti (f : GFifo α) (len : Nat) :
      Reachable f → Reachable (gfifo_drop_multi f len).2
  | pushArray (f : GFifo α) (arr : List α) (len : Nat) :
      Reachable f → Reachable (gfifo_push_array f arr len).2
  | popArray (f : GFifo α) (arr : List α) (len : Nat) :
      Reachable f → Reachable (gfifo_pop_array f arr len).2.1
  | reset (f : GFifo α) : Reachable f → Reachable (gfifo_reset f)

/-- The inductive occupancy invariant: the capacity fits in a uint32 and the
stored `i`/`o` fields are the uint32 images of monotone ghost counters whose
true distance never exceeds the capacity. -/
def Inv (f : GFifo α) : Prop :=
  f.cap < u32 ∧
  ∃ I O : Nat, O ≤ I ∧ I - O ≤ f.cap ∧ f.i = I % u32 ∧ f.o = O % u32

/-!
## Relating the two flavors, and concrete scenario states
-/

/-- The logical state of an external-buffer queue, viewed as an
embedded-buffer queue: both structs carry exactly the fields
`buf/cap/msk/i/o`. -/
def toS (g : GFifo α) : SFifo α :=
  ⟨g.buf, g.cap, g.msk, g.i, g.o⟩

/-- Two queues of the two storage flavors hold the same logical state:
identical stored elements, capacity, mask and head/tail counters. -/
def StateAgree (g : GFifo α) (s : SFifo α) : Prop :=
  toS g = s

/-- The operation suffixes generated by `DECLARE_GFIFO_TYPE`
(src/gfifo.h:47-314). -/
def gfifoDeclaredOps : List String :=
  ["init", "reset", "is_empty", "is_full", "count", "push", "pop", "drop",
   "drop_multi", "peek", "peek_at", "push_array", "pop_array"]

/-- The operation suffixes generated by `DECLARE_SFIFO_TYPE`
(src/inc/sfifo.h:53-287): there is no `drop_multi`. -/
def sfifoDeclaredOps : List String :=
  ["init", "reset", "is_empty", "is_full", "count", "push", "pop", "drop",
   "peek", "peek_at", "push_array", "pop_array"]

/-- The common operation set named by the spec (§6) for both flavors. -/
def claimedCommonOps : List String :=
  ["init", "reset", "is_empty", "is_full", "count", "push", "pop", "drop",
   "drop_multi", "peek", "peek_at", "push_array", "pop_array"]

/-- A freshly initialized capacity-8 queue (spec §8, FIFO round-trip). -/
def c2Init : GFifo Nat :=
  (gfifo_init ⟨[], 0, 0, 0, 0⟩ (some (List.replicate 8 0)) 8).2

/-- Spec §8 wrap-crossing scenario, first part: capacity 4, push 3 elements
(10, 20, 30), pop 2, giving `i = 3`, `o = 2`. -/
def c4Start : GFifo Nat :=
  (popSeq (pushSeq (gfifo_init ⟨[], 0, 0, 0, 0⟩
    (some (List.replicate 4 0)) 4).2 [10, 20, 30]).1 2).1

/-- A concrete reachable state: capacity-1 queue just after `init`. -/
def c1Init : GFifo Nat :=
  (gfifo_init ⟨[], 0, 0, 0, 0⟩ (some [7]) 1).2

/-!
## Arithmetic lemmas
-/

theorem sub32_lt (a b : Nat) : sub32 a b < u32 := by
  unfold sub32 u32
  omega

/-- The ghost-counter view of uint32 subtraction: if the stored `uint32_t`
values are images of monotone counters `I ≥ O` whose true distance is below
`2 ^ 32`, then the modular subtraction recovers the true distance. -/
theorem sub32_ghost {I O : Nat} (h1 : O ≤ I) (h2 : I - O < u32) :
    sub32 (I % u32) (O % u32) = I - O := by
  unfold sub32 u32 at *
  omega

/-- uint32 subtraction agrees with truncated subtraction when no underflow. -/
theorem sub32_of_le {a b : Nat} (hb : b ≤ a) (ha : a < u32) : sub32 a b = a - b := by
  unfold sub32 u32 at *
  omega

theorem sub32_eq_zero_iff {a b : Nat} (ha : a < u32) (hb : b < u32) :
    sub32 a b = 0 ↔ a = b := by
  unfold sub32 u32 at *
  omega

/-- `n & (n - 1) == 0` is exactly the power-of-two test for positive `n`
(the check used by `gfifo_##name##_init` and the `_Static_assert` of
`DECLARE_SFIFO_TYPE`). -/
theorem land_pred_eq_zero_iff (n : Nat) (hn : 0 < n) :
    n &&& (n - 1) = 0 ↔ ∃ k, n = 2 ^ k := by
  induction n using Nat.strong_induction_on with
  | _ n ih =>
    rcases Nat.even_or_odd n with he | ho
    · obtain ⟨m, hm⟩ := he
      have hm' : n = 2 * m := by omega
      have hm0 : 0 < m := by omega
      have h2 : Nat.bit true (m - 1) = n - 1 := by
        simp only [Nat.bit_true]
        omega
      have h1 : Nat.bit false m = n := by
        simp only [Nat.bit_false]
        omega
      have key : n &&& (n - 1) = 2 * (m &&& (m - 1)) := by
        rw [← h2, ← h1, Nat.land_bit]
        simp [Nat.bit_false]
      rw [key]
      have ihm := ih m (by omega) hm0
      constructor
      · intro h0
        obtain ⟨k, hk⟩ := ihm.mp (by omega)
        exact ⟨k + 1, by rw [pow_succ]; omega⟩
      · rintro ⟨k, hk⟩
        cases k with
        | zero => exact absurd hk (by omega)
        | succ j =>
          have hj : m = 2 ^ j := by rw [pow_succ] at hk; omega
          have := ihm.mpr ⟨j, hj⟩
          omega
    · obtain ⟨m, hm⟩ := ho
      rcases Nat.eq_zero_or_pos m with hm0 | hm0
      · have h1 : n = 1 := by omega
        subst h1
        exact ⟨fun _ => ⟨0, rfl⟩, fun _ => by decide⟩
      · have hl : n &&& (n - 1) ≠ 0 := by
          have h2 : Nat.bit false m = n - 1 := by
            simp only [Nat.bit_false]
            omega
          have h1 : Nat.bit true m = n := by
            simp only [Nat.bit_true]
            omega
          rw [← h2, ← h1, Nat.land_bit]
          simp only [Bool.and_false, Nat.bit_false, Nat.and_self]
          omega
        have hr : ¬ ∃ k, n = 2 ^ k := by
          rintro ⟨k, hk⟩
          cases k with
          | zero => simp at hk; omega
          | succ j => rw [pow_succ] at hk; omega
        exact iff_of_false hl hr

/-!
## The occupancy invariant holds in every reachable state
-/

theorem inv_count {α} {f : GFifo α} (h : Inv f) :
    sub32 f.i f.o ≤ f.cap := by
  obtain ⟨hcap, I, O, hio, hcnt, hi, ho⟩ := h
  rw [hi, ho, sub32_ghost hio (Nat.lt_of_le_of_lt hcnt hcap)]
  exact hcnt

theorem inv_i_lt {α} {f : GFifo α} (h : Inv f) : f.i < u32 := by
  obtain ⟨-, I, O, -, -, hi, -⟩ := h
  rw [hi]
  exact Nat.mod_lt _ (by unfold u32; omega)

theorem inv_o_lt {α} {f : GFifo α} (h : Inv f) : f.o < u32 := by
  obtain ⟨-, I, O, -, -, -, ho⟩ := h
  rw [ho]
  exact Nat.mod_lt _ (by unfold u32; omega)

theorem inv_advance_i {α} (f : GFifo α) (b : List α) (k : Nat) (h : Inv f)
    (hk : sub32 f.i f.o + k ≤ f.cap) :
    Inv { f with buf := b, i := (f.i + k) % u32 } := by
  obtain ⟨hcap, I, O, hio, hcnt, hi, ho⟩ := h
  have hs : sub32 f.i f.o = I - O := by
    rw [hi, ho]; exact sub32_ghost hio (Nat.lt_of_le_of_lt hcnt hcap)
  refine ⟨hcap, I + k, O, by omega, ?_, ?_, ho⟩
  · show I + k - O ≤ f.cap
    omega
  · show (f.i + k) % u32 = (I + k) % u32
    rw [hi, Nat.mod_add_mod]

theorem inv_advance_o {α} (f : GFifo α) (k : Nat) (h : Inv f)
    (hk : k ≤ sub32 f.i f.o) :
    Inv { f with o := (f.o + k) % u32 } := by
  obtain ⟨hcap, I, O, hio, hcnt, hi, ho⟩ := h
  have hs : sub32 f.i f.o = I - O := by
    rw [hi, ho]; exact sub32_ghost hio (Nat.lt_of_le_of_lt hcnt hcap)
  refine ⟨hcap, I, O + k, by omega, ?_, hi, ?_⟩
  · show I - (O + k) ≤ f.cap
    omega
  · show (f.o + k) % u32 = (O + k) % u32
    rw [ho, Nat.mod_add_mod]

theorem inv_init {α} (f₀ : GFifo α) (buf : List α) (size : Nat)
    (hsize : size < u32) (hok : (gfifo_init f₀ (some buf) size).1 = true) :
    Inv (gfifo_init f₀ (some buf) size).2 := by
  unfold gfifo_init at hok ⊢
  by_cases hc : size = 0 ∨ size &&& (size - 1) ≠ 0 ∨ (some buf).isNone
  · rw [if_pos hc] at hok
    simp at hok
  · simp only [if_neg hc]
    exact ⟨hsize, 0, 0, Nat.le_refl 0, by simp, by simp, by simp⟩

theorem inv_push {α} (f : GFifo α) (e : α) (h : Inv f) :
    Inv (gfifo_push f e).2 := by
  unfold gfifo_push
  by_cases hc : sub32 f.i f.o < f.cap
  · simp only [if_pos hc]
    exact inv_advance_i f _ 1 h (by omega)
  · simp only [if_neg hc]
    exact h

theorem inv_pop {α} [Inhabited α] (f : GFifo α) (e : α) (h : Inv f) :
    Inv (gfifo_pop f e).2.1 := by
  unfold gfifo_pop
  by_cases hc : sub32 f.i f.o > 0
  · simp only [if_pos hc]
    exact inv_advance_o f 1 h (by omega)
  · simp only [if_neg hc]
    exact h

theorem inv_drop {α} (f : GFifo α) (h : Inv f) :
    Inv (gfifo_drop f).2 := by
  unfold gfifo_drop
  by_cases hc : sub32 f.i f.o > 0
  · simp only [if_pos hc]
    exact inv_advance_o f 1 h (by omega)
  · simp only [if_neg hc]
    exact h

theorem inv_drop_multi {α} (f : GFifo α) (len : Nat) (h : Inv f) :
    Inv (gfifo_drop_multi f len).2 := by
  unfold gfifo_drop_multi
  by_cases h0 : len = 0
  · simp only [if_pos h0]
    exact h
  · simp only [if_neg h0]
    by_cases hc : sub32 f.i f.o < len
    · simp only [if_pos hc]
      exact h
    · simp only [if_neg hc]
      exact inv_advance_o f len h (by omega)

theorem inv_push_array {α} [Inhabited α] (f : GFifo α) (arr : List α)
    (len : Nat) (h : Inv f) : Inv (gfifo_push_array f arr len).2 := by
  unfold gfifo_push_array
  by_cases h0 : len = 0
  · simp only [if_pos h0]
    exact h
  · simp only [if_neg h0]
    by_cases hc : len > sub32 f.cap (sub32 f.i f.o)
    · simp only [if_pos hc]
      exact h
    · simp only [if_neg hc]
      refine inv_advance_i f _ len h ?_
      have hcnt := inv_count h
      have hspc : sub32 f.cap (sub32 f.i f.o) = f.cap - sub32 f.i f.o :=
        sub32_of_le hcnt h.1
      omega

theorem inv_pop_array {α} [Inhabited α] (f : GFifo α) (arr : List α)
    (len : Nat) (h : Inv f) : Inv (gfifo_pop_array f arr len).2.1 := by
  unfold gfifo_pop_array
  by_cases h0 : len = 0
  · simp only [if_pos h0]
    exact h
  · simp only [if_neg h0]
    by_cases hc : sub32 f.i f.o < len
    · simp only [if_pos hc]
      exact h
    · simp only [if_neg hc]
      exact inv_advance_o f len h (by omega)

theorem inv_reset {α} (f : GFifo α) (h : Inv f) : Inv (gfifo_reset f) :=
  ⟨h.1, 0, 0, Nat.le_refl 0, by simp, by simp [gfifo_reset], by simp [gfifo_reset]⟩

theorem reachable_inv {α} [Inhabited α] {f : GFifo α} (h : Reachable f) :
    Inv f := by
  induction h with
  | init f₀ buf size hsize hok => exact inv_init f₀ buf size hsize hok
  | push f e _ ih => exact inv_push f e ih
  | pop f e _ ih => exact inv_pop f e ih
  | drop f _ ih => exact inv_drop f ih
  | dropMulti f len _ ih => exact inv_drop_multi f len ih
  | pushArray f arr len _ ih => exact inv_push_array f arr len ih
  | popArray f arr len _ ih => exact inv_pop_array f arr len ih
  | reset f _ ih => exact inv_reset f ih

/-!
## The two storage flavors compute identically on identical logical states

The bodies generated by `DECLARE_SFIFO_TYPE` are line-for-line those
generated by `DECLARE_GFIFO_TYPE` for every operation both declare, so each
`sfifo` operation commutes with the field-wise conversion `toS`.
-/

theorem toS_is_empty (g : GFifo α) : sfifo_is_empty (toS g) = gfifo_is_empty g :=
  rfl

theorem toS_is_full (g : GFifo α) : sfifo_is_full (toS g) = gfifo_is_full g :=
  rfl

theorem toS_count (g : GFifo α) : sfifo_count (toS g) = gfifo_count g :=
  rfl

theorem toS_reset (g : GFifo α) : sfifo_reset (toS g) = toS (gfifo_reset g) :=
  rfl

theorem toS_push (g : GFifo α) (e : α) :
    sfifo_push (toS g) e = ((gfifo_push g e).1, toS (gfifo_push g e).2) := by
  unfold sfifo_push gfifo_push toS
  by_cases hc : sub32 g.i g.o < g.cap <;> simp [hc]

theorem toS_pop [Inhabited α] (g : GFifo α) (e : α) :
    sfifo_pop (toS g) e =
      ((gfifo_pop g e).1, toS (gfifo_pop g e).2.1, (gfifo_pop g e).2.2) := by
  unfold sfifo_pop gfifo_pop toS
  by_cases hc : sub32 g.i g.o > 0 <;> simp [hc]

theorem toS_drop (g : GFifo α) :
    sfifo_drop (toS g) = ((gfifo_drop g).1, toS (gfifo_drop g).2) := by
  unfold sfifo_drop gfifo_drop toS
  by_cases hc : sub32 g.i g.o > 0 <;> simp [hc]

theorem toS_peek [Inhabited α] (g : GFifo α) (e : α) :
    sfifo_peek (toS g) e = gfifo_peek g e := by
  unfold sfifo_peek gfifo_peek toS
  by_cases hc : sub32 g.i g.o > 0 <;> simp [hc]

theorem toS_peek_at [Inhabited α] (g : GFifo α) (e : α) (ofst : Nat) :
    sfifo_peek_at (toS g) e ofst = gfifo_peek_at g e ofst := by
  unfold sfifo_peek_at gfifo_peek_at toS
  by_cases hc : ofst < sub32 g.i g.o <;> simp [hc]

theorem toS_push_array [Inhabited α] (g : GFifo α) (arr : List α) (len : Nat) :
    sfifo_push_array (toS g) arr len =
      ((gfifo_push_array g arr len).1, toS (gfifo_push_array g arr len).2) := by
  unfold sfifo_push_array gfifo_push_array toS
  by_cases h0 : len = 0
  · simp [h0]
  · by_cases hc : len > sub32 g.cap (sub32 g.i g.o) <;> simp [h0, hc]

theorem toS_pop_array [Inhabited α] (g : GFifo α) (arr : List α) (len : Nat) :
    sfifo_pop_array (toS g) arr len =
      ((gfifo_pop_array g arr len).1, toS (gfifo_pop_array g arr len).2.1,
       (gfifo_pop_array g arr len).2.2) := by
  unfold sfifo_pop_array gfifo_pop_array toS
  by_cases h0 : len = 0
  · simp [h0]
  · by_cases hc : sub32 g.i g.o < len <;> simp [h0, hc]

theorem toS_init (g : GFifo α) (b : List α) (size : Nat)
    (hok : (gfifo_init g (some b) size).1 = true) (hbuf : g.buf = b) :
    sfifo_init size (toS g) = (true, toS (gfifo_init g (some b) size).2) := by
  unfold gfifo_init at hok ⊢
  by_cases hc : size = 0 ∨ size &&& (size - 1) ≠ 0 ∨ (some b).isNone
  · rw [if_pos hc] at hok
    simp at hok
  · rw [if_neg hc]
    unfold sfifo_init toS
    simp [hbuf]

/-!
## The claims
-/

/-- C1: for every reachable state of a queue (any sequence of init followed
by push/pop/drop/drop_multi/peek/peek_at/push_array/pop_array/reset calls),
the occupancy computed as the unsigned modular difference `head - tail`
satisfies `count() ≤ capacity`, `is_empty()` returns true iff `count() == 0`,
and `is_full()` returns true iff `count() == capacity`; `0 ≤ count()` holds
by the type.  The reachable set includes states whose `i`/`o` counters have
individually wrapped past `2^32 - 1`. -/
theorem C1_occupancy_invariant {α : Type} [Inhabited α] (f : GFifo α)
    (h : Reachable f) :
    gfifo_count f ≤ f.cap ∧
    (gfifo_is_empty f = true ↔ gfifo_count f = 0) ∧
    (gfifo_is_full f = true ↔ gfifo_count f = f.cap) := by
  have hinv := reachable_inv h
  refine ⟨inv_count hinv, ?_, ?_⟩
  · unfold gfifo_is_empty gfifo_count
    rw [beq_iff_eq]
    exact (sub32_eq_zero_iff (inv_i_lt hinv) (inv_o_lt hinv)).symm
  · unfold gfifo_is_full gfifo_count
    rw [beq_iff_eq]

/-- Witness for C1 at the concrete reachable state `c1Init`. -/
theorem C1_occupancy_invariant_witness :
    gfifo_count c1Init ≤ c1Init.cap ∧
    (gfifo_is_empty c1Init = true ↔ gfifo_count c1Init = 0) ∧
    (gfifo_is_full c1Init = true ↔ gfifo_count c1Init = c1Init.cap) :=
  C1_occupancy_invariant c1Init
    (Reachable.init ⟨[], 0, 0, 0, 0⟩ [7] 1 (by decide) (by decide))

/-- C2: on a freshly initialized queue of capacity 8, pushing 1..8 succeeds
on each of the 8 calls; a 9th push fails and leaves head, tail and storage
unchanged; `is_full()` then returns true; 8 subsequent pops each succeed and
yield 1,2,...,8 in that order; and `is_empty()` returns true afterward. -/
theorem C2_fifo_roundtrip :
    (pushSeq c2Init [1, 2, 3, 4, 5, 6, 7, 8]).2 = List.replicate 8 true ∧
    gfifo_push (pushSeq c2Init [1, 2, 3, 4, 5, 6, 7, 8]).1 9 =
      (false, (pushSeq c2Init [1, 2, 3, 4, 5, 6, 7, 8]).1) ∧
    gfifo_is_full (pushSeq c2Init [1, 2, 3, 4, 5, 6, 7, 8]).1 = true ∧
    (popSeq (pushSeq c2Init [1, 2, 3, 4, 5, 6, 7, 8]).1 8).2.1 =
      [1, 2, 3, 4, 5, 6, 7, 8] ∧
    (popSeq (pushSeq c2Init [1, 2, 3, 4, 5, 6, 7, 8]).1 8).2.2 =
      List.replicate 8 true ∧
    gfifo_is_empty (popSeq (pushSeq c2Init [1, 2, 3, 4, 5, 6, 7, 8]).1 8).1 =
      true := by
  decide

/-- C3: whenever the requested length exceeds the free space (`push_array`)
or the stored count (`pop_array`, `drop_multi`), the call returns failure
and leaves head, tail and every storage element exactly as before: the
admission check precedes any copy or index update.  The hypotheses say the
state is a plausible queue state (capacity a uint32, occupancy within
capacity); both hold in every reachable state. -/
theorem C3_all_or_nothing {α : Type} [Inhabited α] (f : GFifo α)
    (arr : List α) (len : Nat) (hcap : f.cap < u32)
    (hcnt : gfifo_count f ≤ f.cap) :
    (len > f.cap - gfifo_count f → gfifo_push_array f arr len = (false, f)) ∧
    (len > gfifo_count f → gfifo_pop_array f arr len = (false, f, arr)) ∧
    (len > gfifo_count f → gfifo_drop_multi f len = (false, f)) := by
  unfold gfifo_count at hcnt ⊢
  refine ⟨?_, ?_, ?_⟩
  · intro hgt
    unfold gfifo_push_array
    rw [if_neg (by omega), if_pos (by rw [sub32_of_le hcnt hcap]; omega)]
  · intro hgt
    unfold gfifo_pop_array
    rw [if_neg (by omega), if_pos (by omega)]
  · intro hgt
    unfold gfifo_drop_multi
    rw [if_neg (by omega), if_pos (by omega)]

/-- Witness for C3 at `c4Start` (capacity 4, occupancy 1, free space 3). -/
theorem C3_all_or_nothing_witness :
    gfifo_push_array c4Start [1, 2, 3, 4] 4 = (false, c4Start) ∧
    gfifo_pop_array c4Start [0, 0] 2 = (false, c4Start, [0, 0]) ∧
    gfifo_drop_multi c4Start 2 = (false, c4Start) :=
  ⟨(C3_all_or_nothing c4Start [1, 2, 3, 4] 4 (by decide) (by decide)).1
      (by decide),
   (C3_all_or_nothing c4Start [0, 0] 2 (by decide) (by decide)).2.1 (by decide),
   (C3_all_or_nothing c4Start [0, 0] 2 (by decide) (by decide)).2.2 (by decide)⟩

/-- C4 counterexample: in the spec's wrap-crossing scenario (capacity 4,
push 10,20,30, pop 2, then `push_array [40,50,60]`), the subsequent
`pop_array` of 3 elements does NOT return the 3 array elements: the queue
still holds the element 30 from the initial pushes, so FIFO order returns
30,40,50. -/
theorem C4_pop_array_yields_fifo_order_not_array :
    (gfifo_push_array c4Start [40, 50, 60] 3).1 = true ∧
    (gfifo_pop_array (gfifo_push_array c4Start [40, 50, 60] 3).2 [0, 0, 0]
        3).2.2 ≠ [40, 50, 60] := by
  decide

/-- C4 (amended): on a capacity-4 queue with `head = 3`, `tail = 2` (push 3
elements, pop 2), `push_array` of 3 elements succeeds (free space is exactly
3) and physically writes the first element into slot 3 and the remaining two
into slots 0 and 1; a subsequent `pop_array` of 3 elements succeeds and
returns, in FIFO order, the element remaining from the initial pushes
followed by the first two elements of the array. -/
theorem C4_wrap_crossing_bulk :
    c4Start.i = 3 ∧ c4Start.o = 2 ∧ c4Start.buf = [10, 20, 30, 0] ∧
    c4Start.cap - gfifo_count c4Start = 3 ∧
    gfifo_push_array c4Start [40, 50, 60] 3 =
      (true, { buf := [50, 60, 30, 40], cap := 4, msk := 3, i := 6, o := 2 }) ∧
    gfifo_pop_array (gfifo_push_array c4Start [40, 50, 60] 3).2 [0, 0, 0] 3 =
      (true, { buf := [50, 60, 30, 40], cap := 4, msk := 3, i := 6, o := 5 },
       [30, 40, 50]) := by
  decide

/-- C5: external-buffer `init(capacity, buffer)` returns false, with no
field of the queue modified, iff the capacity is 0, the capacity is not a
power of two, or the buffer is null; on success it records the capacity,
`mask = capacity - 1`, the buffer reference, and sets `head = tail = 0`.
In particular capacities 0, 3 and 1000 are rejected and 1, 2, 4 and 1024
are accepted. -/
theorem C5_init_validation {α : Type} (f : GFifo α) (buf : Option (List α))
    (size : Nat) :
    ((gfifo_init f buf size).1 = false ↔
      size = 0 ∨ (¬ ∃ k, size = 2 ^ k) ∨ buf = none) ∧
    ((gfifo_init f buf size).1 = false → (gfifo_init f buf size).2 = f) ∧
    ((gfifo_init f buf size).1 = true →
      ∃ b, buf = some b ∧
        (gfifo_init f buf size).2 =
          { buf := b, cap := size, msk := size - 1, i := 0, o := 0 }) ∧
    (∀ c, c ∈ [0, 3, 1000] →
      (gfifo_init (⟨[], 0, 0, 0, 0⟩ : GFifo Nat)
        (some (List.replicate 1024 0)) c).1 = false) ∧
    (∀ c, c ∈ [1, 2, 4, 1024] →
      (gfifo_init (⟨[], 0, 0, 0, 0⟩ : GFifo Nat)
        (some (List.replicate 1024 0)) c).1 = true) := by
  refine ⟨?_, ?_, ?_, by decide, by decide⟩
  · unfold gfifo_init
    by_cases hc : size = 0 ∨ size &&& (size - 1) ≠ 0 ∨ buf.isNone
    · rw [if_pos hc]
      simp only [true_iff]
      rcases hc with h0 | hl | hn
      · exact Or.inl h0
      · refine Or.inr (Or.inl ?_)
        rintro ⟨k, hk⟩
        have hpos : 0 < size := by
          rcases Nat.eq_zero_or_pos size with h | h
          · subst h
            simp at hl
          · exact h
        exact hl ((land_pred_eq_zero_iff size hpos).mpr ⟨k, hk⟩)
      · exact Or.inr (Or.inr (Option.isNone_iff_eq_none.mp hn))
    · rw [if_neg hc]
      push_neg at hc
      obtain ⟨h0, hl, hn⟩ := hc
      refine iff_of_false (by simp) ?_
      rintro (h | h | h)
      · exact h0 h
      · exact h ((land_pred_eq_zero_iff size (by omega)).mp hl)
      · rw [h] at hn
        exact hn rfl
  · intro hfail
    unfold gfifo_init at hfail ⊢
    by_cases hc : size = 0 ∨ size &&& (size - 1) ≠ 0 ∨ buf.isNone
    · rw [if_pos hc]
    · rw [if_neg hc] at hfail
      simp at hfail
  · intro hok
    unfold gfifo_init at hok ⊢
    by_cases hc : size = 0 ∨ size &&& (size - 1) ≠ 0 ∨ buf.isNone
    · rw [if_pos hc] at hok
      simp at hok
    · rw [if_neg hc]
      push_neg at hc
      cases buf with
      | none => exact absurd rfl hc.2.2
      | some b => exact ⟨b, rfl, rfl⟩

/-- Witness for C5: the no-mutation branch at the rejected capacity 3, the
success branch at capacity 4, and a rejected null buffer. -/
theorem C5_init_validation_witness :
    (gfifo_init (⟨[], 0, 0, 0, 0⟩ : GFifo Nat) (some [0, 0, 0]) 3).2 =
      ⟨[], 0, 0, 0, 0⟩ ∧
    (∃ b, some (List.replicate 4 (0 : Nat)) = some b ∧
      (gfifo_init (⟨[], 0, 0, 0, 0⟩ : GFifo Nat)
        (some (List.replicate 4 0)) 4).2 = ⟨b, 4, 3, 0, 0⟩) ∧
    (gfifo_init (⟨[], 0, 0, 0, 0⟩ : GFifo Nat) none 8).1 = false :=
  ⟨(C5_init_validation (⟨[], 0, 0, 0, 0⟩ : GFifo Nat) (some [0, 0, 0]) 3).2.1
      (by decide),
   (C5_init_validation (⟨[], 0, 0, 0, 0⟩ : GFifo Nat)
      (some (List.replicate 4 0)) 4).2.2.1 (by decide),
   (C5_init_validation (⟨[], 0, 0, 0, 0⟩ : GFifo Nat) none 8).1.mpr
      (Or.inr (Or.inr rfl))⟩

/-- C6: the intended contract of `drop_multi(n)` — advance `tail` by `n`
all-or-nothing: success with no effect when `n == 0`, success advancing
`tail` by `n` and changing nothing else when `n ≤ count()`, and failure
without any mutation when `n` exceeds `count()` — holds of the model
repaired per spec §9 (the source itself does not compile; see
`gfifo_drop_multi`). -/
theorem C6_drop_multi_contract {α : Type} (f : GFifo α) (len : Nat) :
    (len = 0 → gfifo_drop_multi f len = (true, f)) ∧
    (0 < len → len ≤ gfifo_count f →
      gfifo_drop_multi f len = (true, { f with o := (f.o + len) % u32 })) ∧
    (len > gfifo_count f → gfifo_drop_multi f len = (false, f)) := by
  unfold gfifo_count gfifo_drop_multi
  refine ⟨fun h0 => by rw [if_pos h0], ?_, ?_⟩
  · intro hpos hle
    rw [if_neg (by omega), if_neg (by omega)]
  · intro hgt
    rw [if_neg (by omega), if_pos (by omega)]

/-- Witness for C6 at `c4Start` (occupancy 1). -/
theorem C6_drop_multi_contract_witness :
    gfifo_drop_multi c4Start 0 = (true, c4Start) ∧
    gfifo_drop_multi c4Start 1 =
      (true, { c4Start with o := (c4Start.o + 1) % u32 }) ∧
    gfifo_drop_multi c4Start 2 = (false, c4Start) :=
  ⟨(C6_drop_multi_contract c4Start 0).1 rfl,
   (C6_drop_multi_contract c4Start 1).2.1 (by decide) (by decide),
   (C6_drop_multi_contract c4Start 2).2.2 (by decide)⟩

/-- C7 counterexample: the claimed common operation set contains
`drop_multi`, but the embedded-buffer flavor (`DECLARE_SFIFO_TYPE`)
declares no `drop_multi`. -/
theorem C7_drop_multi_missing :
    "drop_multi" ∈ claimedCommonOps ∧ "drop_multi" ∉ sfifoDeclaredOps := by
  decide

/-- C7 (amended): both storage flavors provide init, reset, is_empty,
is_full, count, push, pop, drop, peek, peek_at, push_array and pop_array
(`drop_multi` exists only in the external-buffer flavor), and for every
operation both provide, given the same logical state (stored elements,
capacity, mask, head, tail) and the same arguments, the two flavors return
the same result and produce the same successor logical state. -/
theorem C7_flavor_equivalence {α : Type} [Inhabited α] (g : GFifo α)
    (s : SFifo α) (h : StateAgree g s) (e : α) (arr b : List α)
    (len ofst size : Nat) :
    sfifo_is_empty s = gfifo_is_empty g ∧
    sfifo_is_full s = gfifo_is_full g ∧
    sfifo_count s = gfifo_count g ∧
    sfifo_reset s = toS (gfifo_reset g) ∧
    sfifo_push s e = ((gfifo_push g e).1, toS (gfifo_push g e).2) ∧
    sfifo_pop s e =
      ((gfifo_pop g e).1, toS (gfifo_pop g e).2.1, (gfifo_pop g e).2.2) ∧
    sfifo_drop s = ((gfifo_drop g).1, toS (gfifo_drop g).2) ∧
    sfifo_peek s e = gfifo_peek g e ∧
    sfifo_peek_at s e ofst = gfifo_peek_at g e ofst ∧
    sfifo_push_array s arr len =
      ((gfifo_push_array g arr len).1, toS (gfifo_push_array g arr len).2) ∧
    sfifo_pop_array s arr len =
      ((gfifo_pop_array g arr len).1, toS (gfifo_pop_array g arr len).2.1,
       (gfifo_pop_array g arr len).2.2) ∧
    (g.buf = b → (gfifo_init g (some b) size).1 = true →
      sfifo_init size s = (true, toS (gfifo_init g (some b) size).2)) := by
  unfold StateAgree at h
  subst h
  exact ⟨toS_is_empty g, toS_is_full g, toS_count g, toS_reset g, toS_push g e,
    toS_pop g e, toS_drop g, toS_peek g e, toS_peek_at g e ofst,
    toS_push_array g arr len, toS_pop_array g arr len,
    fun hb hok => toS_init g b size hok hb⟩

/-- Witness for C7 at a concrete pair of states in agreement. -/
theorem C7_flavor_equivalence_witness :
    sfifo_count (⟨[5, 6], 2, 1, 0, 0⟩ : SFifo Nat) =
      gfifo_count (⟨[5, 6], 2, 1, 0, 0⟩ : GFifo Nat) ∧
    sfifo_push (⟨[5, 6], 2, 1, 0, 0⟩ : SFifo Nat) 9 =
      ((gfifo_push (⟨[5, 6], 2, 1, 0, 0⟩ : GFifo Nat) 9).1,
       toS (gfifo_push (⟨[5, 6], 2, 1, 0, 0⟩ : GFifo Nat) 9).2) ∧
    sfifo_init 2 (⟨[5, 6], 2, 1, 0, 0⟩ : SFifo Nat) =
      (true, toS (gfifo_init (⟨[5, 6], 2, 1, 0, 0⟩ : GFifo Nat)
        (some [5, 6]) 2).2) :=
  ⟨(C7_flavor_equivalence (⟨[5, 6], 2, 1, 0, 0⟩ : GFifo Nat)
      (⟨[5, 6], 2, 1, 0, 0⟩ : SFifo Nat) rfl 9 [1] [5, 6] 1 0 2).2.2.1,
   (C7_flavor_equivalence (⟨[5, 6], 2, 1, 0, 0⟩ : GFifo Nat)
      (⟨[5, 6], 2, 1, 0, 0⟩ : SFifo Nat) rfl 9 [1] [5, 6] 1 0 2).2.2.2.2.1,
   (C7_flavor_equivalence (⟨[5, 6], 2, 1, 0, 0⟩ : GFifo Nat)
      (⟨[5, 6], 2, 1, 0, 0⟩ : SFifo Nat) rfl 9 [1] [5, 6] 1 0
      2).2.2.2.2.2.2.2.2.2.2.2 rfl (by decide)⟩

/-- C8: any sequence of `peek`/`peek_at` calls, whether each call succeeds
or fails, leaves head, tail, `count()` and all stored elements unchanged
(both take the queue by `const` pointer and write only `*e`); a successful
`peek` returns the element at slot `tail & mask`, and a successful
`peek_at(out, offset)` with `offset < count()` returns the element at slot
`(tail + offset) & mask`. -/
theorem C8_peek_purity {α : Type} [Inhabited α] (f : GFifo α) (e : α)
    (calls : List PeekCall) (ofst : Nat) :
    (runPeeks f e calls).1 = f ∧
    (0 < gfifo_count f →
      gfifo_peek f e = (true, f.buf.getD (f.o &&& f.msk) default)) ∧
    (ofst < gfifo_count f →
      gfifo_peek_at f e ofst =
        (true, f.buf.getD (((f.o + ofst) % u32) &&& f.msk) default)) := by
  refine ⟨?_, ?_, ?_⟩
  · induction calls generalizing e with
    | nil => rfl
    | cons c rest ih => cases c <;> exact ih _
  · intro h
    unfold gfifo_count at h
    unfold gfifo_peek
    rw [if_pos h]
  · intro h
    unfold gfifo_count at h
    unfold gfifo_peek_at
    rw [if_pos h]

/-- Witness for C8 at `c4Start` (occupancy 1). -/
theorem C8_peek_purity_witness :
    (runPeeks c4Start 0 [PeekCall.peek, PeekCall.peekAt 0]).1 = c4Start ∧
    gfifo_peek c4Start 0 =
      (true, c4Start.buf.getD (c4Start.o &&& c4Start.msk) default) ∧
    gfifo_peek_at c4Start 0 0 =
      (true, c4Start.buf.getD (((c4Start.o + 0) % u32) &&& c4Start.msk)
        default) :=
  ⟨(C8_peek_purity c4Start 0 [PeekCall.peek, PeekCall.peekAt 0] 0).1,
   (C8_peek_purity c4Start 0 [PeekCall.peek, PeekCall.peekAt 0] 0).2.1
      (by decide),
   (C8_peek_purity c4Start 0 [PeekCall.peek, PeekCall.peekAt 0] 0).2.2
      (by decide)⟩

/-- C9: for every queue state, `push_array`, `pop_array` and `drop_multi`
called with `n == 0` return success and leave head, tail and all storage
contents unchanged (the destination array of `pop_array` included),
regardless of occupancy. -/
theorem C9_zero_length_noop {α : Type} [Inhabited α] (f : GFifo α)
    (arr : List α) :
    gfifo_push_array f arr 0 = (true, f) ∧
    gfifo_pop_array f arr 0 = (true, f, arr) ∧
    gfifo_drop_multi f 0 = (true, f) :=
  ⟨rfl, rfl, rfl⟩

/-- C10: when `pop`, `peek` or `peek_at` fails (queue empty, or
`offset ≥ count()` for `peek_at`), the caller-supplied output slot is never
written: the failure branch returns before any store through the output
pointer, so the output retains its pre-call value `e`. -/
theorem C10_failed_read_preserves_output {α : Type} [Inhabited α]
    (f : GFifo α) (e : α) (ofst : Nat) :
    (gfifo_count f = 0 → gfifo_pop f e = (false, f, e)) ∧
    (gfifo_count f = 0 → gfifo_peek f e = (false, e)) ∧
    (gfifo_count f ≤ ofst → gfifo_peek_at f e ofst = (false, e)) := by
  unfold gfifo_count gfifo_pop gfifo_peek gfifo_peek_at
  exact ⟨fun h => by rw [if_neg (by omega)],
    fun h => by rw [if_neg (by omega)],
    fun h => by rw [if_neg (by omega)]⟩

/-- Witness for C10 at the empty queue `c1Init` with output slot 9. -/
theorem C10_failed_read_preserves_output_witness :
    gfifo_pop c1Init 9 = (false, c1Init, 9) ∧
    gfifo_peek c1Init 9 = (false, 9) ∧
    gfifo_peek_at c1Init 9 3 = (false, 9) :=
  ⟨(C10_failed_read_preserves_output c1Init 9 3).1 (by decide),
   (C10_failed_read_preserves_output c1Init 9 3).2.1 (by decide),
   (C10_failed_read_preserves_output c1Init 9 3).2.2 (by decide)⟩

end GFifoVerify
